import Mathlib

/-!
Verification of the los-complejos-backend service (Go + Gin + MongoDB).

Shallow embedding: each HTTP handler is translated to a pure Lean function
over explicit inputs (request-context attributes, decoded JSON bodies,
route parameters) and an explicit document store, returning the HTTP status
it would emit together with the store it leaves behind and a record of the
database call it made.  External collaborators (the JWT library, the BSON
driver, strconv) are modelled at their interfaces, faithfully to how the
source uses them.
-/

set_option autoImplicit false

/-- A JSON-like value as it appears in decoded request payloads and in
stored BSON documents. -/
inductive JsonVal where
  | str (s : String)
  | num (n : Int)
  | jbool (b : Bool)
  | jnull
deriving DecidableEq, Repr

/-- A BSON document / decoded JSON object: an association list from field
names to values (Go maps have unique keys; lookup takes the first hit). -/
abbrev BsonDoc := List (String × JsonVal)

/-- A Mongo collection: the list of its documents. -/
abbrev DocStore := List BsonDoc

/-- First-match lookup in an association list, the semantics of reading a
Go map (`value, exists := m[k]`) returning `none` when the key is absent. -/
def lookupKey {α : Type} : List (String × α) → String → Option α
  | [], _ => none
  | (k1, v) :: rest, k => if k1 = k then some v else lookupKey rest k

/-- Go `delete(m, k)`: remove the binding for `k` (all bindings, matching
the unique-key discipline of a Go map). -/
def eraseKey {α : Type} : List (String × α) → String → List (String × α)
  | [], _ => []
  | (k1, v) :: rest, k =>
      if k1 = k then eraseKey rest k else (k1, v) :: eraseKey rest k

/-- Set a single field, as one step of Mongo applying a `$set` patch:
replace the binding in place if present, append it otherwise. -/
def setKey {α : Type} : List (String × α) → String → α → List (String × α)
  | [], k, v => [(k, v)]
  | (k1, v1) :: rest, k, v =>
      if k1 = k then (k, v) :: rest else (k1, v1) :: setKey rest k v

/-- Mongo applying a `$set` patch to one document: set every field of the
patch in order. -/
def applySet (doc : BsonDoc) (patch : BsonDoc) : BsonDoc :=
  patch.foldl (fun d kv => setKey d kv.1 kv.2) doc

/-! ## Token service (token_utils.go, golang-jwt at its interface)

The JWT library is external; a signed token is modelled symbolically as its
signing method, its claim map, and the secret it was signed with, so that
signature verification is the check that the stored secret equals the
server's secret and the method is HMAC. -/

/-- The claim map of a parsed token.  Each of the three claims the service
reads (`_id`, `username`, `role`) is `none` when absent or not a string,
mirroring the Go type assertion `claims["role"].(string)`. -/
structure MapClaims where
  idClaim : Option String
  usernameClaim : Option String
  roleClaim : Option String
deriving DecidableEq, Repr

/-- The signing method of a token: the service accepts only HMAC
(`jwt.SigningMethodHMAC`); everything else is rejected by the keyfunc. -/
inductive JwtMethod where
  | hmacSHA256
  | otherMethod
deriving DecidableEq, Repr

/-- A structurally well-formed signed token.  `signedWith` is the symbolic
signature: verification against server secret `s` succeeds exactly when
`signedWith = s`. -/
structure SignedToken where
  method : JwtMethod
  claims : MapClaims
  signedWith : String
deriving DecidableEq, Repr

/-- utils.GenerateToken: issues an HS256 token with exactly the three
claims `_id`, `username`, `role`, signed with the server secret. -/
def GenerateToken (secret id role username : String) : SignedToken :=
  { method := JwtMethod.hmacSHA256
  , claims := { idClaim := some id, usernameClaim := some username, roleClaim := some role }
  , signedWith := secret }

/-! ## Auth middleware (middleware.go) -/

/-- The `Authorization` header as the middleware sees it: absent/empty
(Gin's `GetHeader` yields `""`), a non-empty string that is not a
structurally valid JWT, or a well-formed signed token. -/
inductive AuthHeader where
  | missingHeader
  | malformedToken
  | bearer (t : SignedToken)
deriving DecidableEq, Repr

/-- Outcome of the middleware: abort the chain with an HTTP status, or set
`_id`, `username`, `role` in the request context and run the next
handler. -/
inductive MwResult where
  | abortWith (status : Nat)
  | passThrough (id username role : String)
deriving DecidableEq, Repr

/-- A claim fails the middleware's per-claim validation when it is absent,
not a string, or the empty string (Go: `!roleOk || role == ""`). -/
def claimMissing : Option String → Bool
  | none => true
  | some s => s = ""

/-- middleware.AuthMiddleware: missing header aborts 401; a malformed
token, a non-HMAC signing method, or a signature made with a different
secret aborts 401; then each of the claims `role`, `username`, `_id` is
checked in that order and aborts 403 when missing or empty; otherwise the
three claim values go into the context and the chain continues. -/
def AuthMiddleware (secret : String) (hdr : AuthHeader) : MwResult :=
  match hdr with
  | AuthHeader.missingHeader => MwResult.abortWith 401
  | AuthHeader.malformedToken => MwResult.abortWith 401
  | AuthHeader.bearer t =>
      if t.method ≠ JwtMethod.hmacSHA256 ∨ t.signedWith ≠ secret then
        MwResult.abortWith 401
      else if claimMissing t.claims.roleClaim then
        MwResult.abortWith 403
      else if claimMissing t.claims.usernameClaim then
        MwResult.abortWith 403
      else if claimMissing t.claims.idClaim then
        MwResult.abortWith 403
      else
        MwResult.passThrough (t.claims.idClaim.getD "") (t.claims.usernameClaim.getD "")
          (t.claims.roleClaim.getD "")

/-- A header value carries a structurally valid token for secret `s` when
it is a well-formed JWT, HMAC-signed, with a signature made by `s`. -/
def structurallyValid (secret : String) (hdr : AuthHeader) : Prop :=
  ∃ t, hdr = AuthHeader.bearer t ∧ t.method = JwtMethod.hmacSHA256 ∧ t.signedWith = secret

/-! ## IMC classifier (utils/complejo_utils.go)

Go computes on IEEE floats.  A float value is embedded as an exact
rational (every finite IEEE value is one) or one of the specials `+Inf`,
`-Inf`, `NaN`, with IEEE comparison semantics (`NaN` compares false under
both `<` and `>=`).  `strconv.ParseFloat(s, 32)` is modelled in full:
the `Inf`/`Infinity`/`NaN` spellings, Go's underscore rule, decimal and
hexadecimal mantissas with exponents, round-to-nearest-even to float32
precision including subnormals, overflow to `ErrRange` (an error, which
CalcIMC turns into "Invalid input"), and silent underflow to zero.  The
square `heightF * heightF` of a float32 value is exact in float64, and
the float64 division rounds its exact quotient to nearest-even.  All
rounding decisions are made with integer arithmetic so concrete inputs
evaluate. -/

/-- A Go float as used by CalcIMC: a finite rational or an IEEE special
value. -/
inductive GoFloat where
  | nanF
  | negInf
  | posInf
  | finite (q : ℚ)
deriving DecidableEq, Repr

/-- Value of a digit string, most significant first. -/
def digitsToNat (ds : List Char) : Nat :=
  ds.foldl (fun n c => 10 * n + (c.toNat - 48)) 0

/-- Split a leading run of decimal digits from the rest. -/
def spanDigits (cs : List Char) : List Char × List Char :=
  (cs.takeWhile Char.isDigit, cs.dropWhile Char.isDigit)

/-- Consume an optional leading sign; returns whether it was `-`. -/
def parseSign : List Char → Bool × List Char
  | '-' :: cs => (true, cs)
  | '+' :: cs => (false, cs)
  | cs => (false, cs)

/-- Go's `lower`: fold an ASCII upper-case letter to lower case. -/
def lowerChar (c : Char) : Char :=
  if 'A' ≤ c ∧ c ≤ 'Z' then Char.ofNat (c.toNat + 32) else c

/-- A string as a case-folded character list, for the case-insensitive
matching strconv's `special` does. -/
def lowerStr (s : String) : List Char := s.toList.map lowerChar

/-- strconv's `special`: the whole string (ParseFloat demands full
consumption) spells `Inf`/`Infinity` with an optional sign, or `NaN`
without one, case-insensitively. -/
def parseSpecial (s : String) : Option GoFloat :=
  let ls := lowerStr s
  if ls = "inf".toList ∨ ls = "+inf".toList ∨ ls = "infinity".toList ∨
      ls = "+infinity".toList then
    some GoFloat.posInf
  else if ls = "-inf".toList ∨ ls = "-infinity".toList then
    some GoFloat.negInf
  else if ls = "nan".toList then
    some GoFloat.nanF
  else none

/-- Character classes tracked by strconv's `underscoreOK` scan: start of
the number, digit (or base prefix), underscore, anything else. -/
inductive SawClass where
  | caret
  | digit
  | underscore
  | other
deriving DecidableEq, Repr

/-- The scan loop of strconv's `underscoreOK`: every underscore must
follow and precede a digit (hex digits count when a `0x` prefix was
seen). -/
def underscoreOKLoop (hex : Bool) : SawClass → List Char → Bool
  | saw, [] => decide (saw ≠ SawClass.underscore)
  | saw, c :: rest =>
      if c.isDigit || (hex && decide ('a' ≤ lowerChar c) && decide (lowerChar c ≤ 'f')) then
        underscoreOKLoop hex SawClass.digit rest
      else if c = '_' then
        if saw = SawClass.digit then underscoreOKLoop hex SawClass.underscore rest
        else false
      else if saw = SawClass.underscore then false
      else underscoreOKLoop hex SawClass.other rest

/-- strconv's `underscoreOK`: skip an optional sign and an optional base
prefix (which counts as a digit for separator purposes), then scan. -/
def underscoreOK (cs : List Char) : Bool :=
  let cs1 :=
    match cs with
    | c :: rest => if c = '-' ∨ c = '+' then rest else cs
    | [] => cs
  match cs1 with
  | c0 :: c1 :: rest =>
      if c0 = '0' ∧ (lowerChar c1 = 'b' ∨ lowerChar c1 = 'o' ∨ lowerChar c1 = 'x') then
        underscoreOKLoop (lowerChar c1 = 'x') SawClass.digit rest
      else underscoreOKLoop false SawClass.caret cs1
  | _ => underscoreOKLoop false SawClass.caret cs1

/-- Bit length of a natural number, with explicit fuel so the kernel can
evaluate it (`bitLen n` has `2 ^ (bitLen n - 1) ≤ n < 2 ^ bitLen n` for
`n ≥ 1`). -/
def bitLenAux : Nat → Nat → Nat
  | 0, _ => 0
  | fuel + 1, n => if n = 0 then 0 else bitLenAux fuel (n / 2) + 1

/-- Bit length of a natural number. -/
def bitLen (n : Nat) : Nat := bitLenAux n n

/-- Whether the positive rational `N / D` is at least `2 ^ t`, decided
with integer arithmetic. -/
def geQPow2 (N D : Nat) (t : Int) : Bool :=
  if 0 ≤ t then decide (D * 2 ^ t.toNat ≤ N) else decide (D ≤ N * 2 ^ (-t).toNat)

/-- Whether `m * 2 ^ k ≥ 2 ^ t` for `m ≥ 1`, decided with integer
arithmetic. -/
def mulPow2GE (m : Nat) (k t : Int) : Bool :=
  geQPow2 m 1 (t - k)

/-- `2 ^ k` as a rational, for integer `k`. -/
def qpow2 (k : Int) : ℚ :=
  if 0 ≤ k then (2 : ℚ) ^ k.toNat else 1 / (2 : ℚ) ^ (-k).toNat

/-- The rational value of a rounded binary float `(-1)^neg * m * 2 ^ k`. -/
def binToRat (neg : Bool) (m : Nat) (k : Int) : ℚ :=
  let mag : ℚ := (m : ℚ) * qpow2 k
  if neg then -mag else mag

/-- IEEE round-to-nearest-even of the positive rational `N / D` at
`prec` significant bits with minimum normal exponent `emin`: pick the
quantum `2 ^ k` (subnormal quantum when the value is below `2 ^ emin`)
and round `N / D / 2 ^ k` to the nearest integer, ties to even.  Returns
the rounded significand and `k`. -/
def roundBinary (prec : Nat) (emin : Int) (N D : Nat) : Nat × Int :=
  let e0 : Int := (bitLen N : Int) - (bitLen D : Int)
  let e : Int := if geQPow2 N D e0 then e0 else e0 - 1
  let ebase : Int := if e < emin then emin else e
  let k : Int := ebase - ((prec : Int) - 1)
  let Np := if 0 ≤ k then N else N * 2 ^ (-k).toNat
  let Dp := if 0 ≤ k then D * 2 ^ k.toNat else D
  let q := Np / Dp
  let r := Np % Dp
  let m :=
    if 2 * r < Dp then q
    else if Dp < 2 * r then q + 1
    else if q % 2 = 0 then q else q + 1
  (m, k)

/-- Round the positive rational `N / D` to float32 as ParseFloat(s, 32)
does: overflow (at or beyond `2 ^ 128` after rounding) is `ErrRange`,
hence an error for CalcIMC; a nonzero value that rounds to zero
underflows silently to 0 (Go raises ErrRange only for overflow). -/
def roundParsed32 (neg : Bool) (N D : Nat) : Option GoFloat :=
  let mk := roundBinary 24 (-126) N D
  if mk.1 = 0 then some (GoFloat.finite 0)
  else if mulPow2GE mk.1 mk.2 128 then none
  else some (GoFloat.finite (binToRat neg mk.1 mk.2))

/-- Finish a decimal parse: the value is `(-1)^neg * n * 10 ^ dp`,
rounded to float32. -/
def parseFiniteDec (neg : Bool) (n : Nat) (dp : Int) : Option GoFloat :=
  if n = 0 then some (GoFloat.finite 0)
  else if 0 ≤ dp then roundParsed32 neg (n * 10 ^ dp.toNat) 1
  else roundParsed32 neg n (10 ^ (-dp).toNat)

/-- Finish a hexadecimal parse: the value is `(-1)^neg * n * 2 ^ k`,
rounded to float32. -/
def parseFiniteBin (neg : Bool) (n : Nat) (k : Int) : Option GoFloat :=
  if n = 0 then some (GoFloat.finite 0)
  else if 0 ≤ k then roundParsed32 neg (n * 2 ^ k.toNat) 1
  else roundParsed32 neg n (2 ^ (-k).toNat)

/-- Parse an unsigned decimal mantissa `digits [. digits]` requiring at
least one digit overall, as strconv does; returns the digits as an
integer, the power-of-ten shift of the fraction, and the rest. -/
def parseMantissaInt (cs : List Char) : Option (Nat × Int × List Char) :=
  let ip := (spanDigits cs).1
  let rest1 := (spanDigits cs).2
  match rest1 with
  | '.' :: rest2 =>
      let fp := (spanDigits rest2).1
      let rest3 := (spanDigits rest2).2
      if ip.length + fp.length = 0 then none
      else some (digitsToNat (ip ++ fp), -(fp.length : Int), rest3)
  | _ =>
      if ip.length = 0 then none
      else some (digitsToNat ip, 0, rest1)

/-- An optional decimal exponent part `e[±]digits` consuming the whole
rest; an empty rest means exponent 0. -/
def parseDecExp : List Char → Option Int
  | [] => some 0
  | e :: rest2 =>
      if e = 'e' ∨ e = 'E' then
        let es := parseSign rest2
        let ed := (spanDigits es.2).1
        let rest4 := (spanDigits es.2).2
        if ed.length = 0 ∨ rest4 ≠ [] then none
        else some (if es.1 then -(digitsToNat ed : Int) else (digitsToNat ed : Int))
      else none

/-- A decimal number after the sign:
mantissa, optional exponent, float32 rounding. -/
def parseDecimal (neg : Bool) (cs : List Char) : Option GoFloat :=
  match parseMantissaInt cs with
  | none => none
  | some (n, dp0, rest) =>
      match parseDecExp rest with
      | none => none
      | some e10 => parseFiniteDec neg n (dp0 + e10)

/-- Hex digit test, case-insensitive. -/
def isHexDigit (c : Char) : Bool :=
  c.isDigit || (decide ('a' ≤ lowerChar c) && decide (lowerChar c ≤ 'f'))

/-- Split a leading run of hex digits from the rest. -/
def spanHexDigits (cs : List Char) : List Char × List Char :=
  (cs.takeWhile isHexDigit, cs.dropWhile isHexDigit)

/-- Value of one hex digit. -/
def hexVal (c : Char) : Nat :=
  if c.isDigit then c.toNat - 48 else (lowerChar c).toNat - 87

/-- Value of a hex digit string, most significant first. -/
def hexToNat (ds : List Char) : Nat :=
  ds.foldl (fun n c => 16 * n + hexVal c) 0

/-- The mandatory binary exponent `p[±]digits` of a hex float, consuming
the whole rest. -/
def parseBinExp : List Char → Option Int
  | [] => none
  | p :: rest2 =>
      if p = 'p' ∨ p = 'P' then
        let es := parseSign rest2
        let ed := (spanDigits es.2).1
        let rest4 := (spanDigits es.2).2
        if ed.length = 0 ∨ rest4 ≠ [] then none
        else some (if es.1 then -(digitsToNat ed : Int) else (digitsToNat ed : Int))
      else none

/-- A hex float after the sign and `0x` prefix: hex mantissa
`hexdigits [. hexdigits]` with at least one digit, then the required
binary exponent; each fractional hex digit shifts the value by four
bits. -/
def parseHex (neg : Bool) (cs : List Char) : Option GoFloat :=
  let ip := (spanHexDigits cs).1
  let rest1 := (spanHexDigits cs).2
  match rest1 with
  | '.' :: rest2 =>
      let fp := (spanHexDigits rest2).1
      let rest3 := (spanHexDigits rest2).2
      if ip.length + fp.length = 0 then none
      else
        match parseBinExp rest3 with
        | none => none
        | some e2 => parseFiniteBin neg (hexToNat (ip ++ fp)) (e2 - 4 * (fp.length : Int))
  | _ =>
      if ip.length = 0 then none
      else
        match parseBinExp rest1 with
        | none => none
        | some e2 => parseFiniteBin neg (hexToNat ip) e2

/-- A number after underscore stripping: optional sign, then either a
`0x`/`0X` hex float or a decimal one. -/
def parseNumber (cs : List Char) : Option GoFloat :=
  let signRes := parseSign cs
  match signRes.2 with
  | '0' :: x :: rest =>
      if lowerChar x = 'x' then parseHex signRes.1 rest
      else parseDecimal signRes.1 signRes.2
  | _ => parseDecimal signRes.1 signRes.2

/-- strconv.ParseFloat(s, 32) as CalcIMC uses it (`none` = non-nil
error, i.e. syntax error or overflow range error): special spellings
first, then the underscore validity check, then the stripped number. -/
def parseFloat (s : String) : Option GoFloat :=
  match parseSpecial s with
  | some v => some v
  | none =>
      let cs := s.toList
      if underscoreOK cs then parseNumber (cs.filter (fun c => c ≠ '_'))
      else none

/-- IEEE float64 multiplication as CalcIMC uses it (`heightF * heightF`):
NaN propagates, infinities follow sign rules, `Inf * 0` is NaN, and the
product of two finite operands is exact — both are float32 values, whose
48-bit product always fits float64's 53-bit significand and exponent
range. -/
def gfMul : GoFloat → GoFloat → GoFloat
  | GoFloat.nanF, _ => GoFloat.nanF
  | _, GoFloat.nanF => GoFloat.nanF
  | GoFloat.posInf, GoFloat.posInf => GoFloat.posInf
  | GoFloat.posInf, GoFloat.negInf => GoFloat.negInf
  | GoFloat.negInf, GoFloat.posInf => GoFloat.negInf
  | GoFloat.negInf, GoFloat.negInf => GoFloat.posInf
  | GoFloat.posInf, GoFloat.finite b =>
      if b = 0 then GoFloat.nanF
      else if b < 0 then GoFloat.negInf else GoFloat.posInf
  | GoFloat.finite a, GoFloat.posInf =>
      if a = 0 then GoFloat.nanF
      else if a < 0 then GoFloat.negInf else GoFloat.posInf
  | GoFloat.negInf, GoFloat.finite b =>
      if b = 0 then GoFloat.nanF
      else if b < 0 then GoFloat.posInf else GoFloat.negInf
  | GoFloat.finite a, GoFloat.negInf =>
      if a = 0 then GoFloat.nanF
      else if a < 0 then GoFloat.posInf else GoFloat.negInf
  | GoFloat.finite a, GoFloat.finite b => GoFloat.finite (a * b)

/-- Round an exact nonzero rational to float64 (round-to-nearest-even at
53 bits, subnormals at `2 ^ -1074`, overflow to infinity). -/
def roundFinite64 (x : ℚ) : GoFloat :=
  if x = 0 then GoFloat.finite 0
  else
    let neg := decide (x < 0)
    let mk := roundBinary 53 (-1022) x.num.natAbs x.den
    if mk.1 = 0 then GoFloat.finite 0
    else if mulPow2GE mk.1 mk.2 1024 then
      if neg then GoFloat.negInf else GoFloat.posInf
    else GoFloat.finite (binToRat neg mk.1 mk.2)

/-- IEEE float64 division: NaN propagates, `Inf / Inf` is NaN, a finite
value over an infinity is zero, an infinity over a finite value keeps
the (sign-adjusted) infinity, a nonzero finite value over zero is a
signed infinity, zero over zero is NaN, and a finite quotient is the
rounded exact quotient (the divisor `heightF²` is `+0` when zero, so no
negative-zero divisor arises in CalcIMC). -/
def gfDiv : GoFloat → GoFloat → GoFloat
  | GoFloat.nanF, _ => GoFloat.nanF
  | _, GoFloat.nanF => GoFloat.nanF
  | GoFloat.posInf, GoFloat.posInf => GoFloat.nanF
  | GoFloat.posInf, GoFloat.negInf => GoFloat.nanF
  | GoFloat.negInf, GoFloat.posInf => GoFloat.nanF
  | GoFloat.negInf, GoFloat.negInf => GoFloat.nanF
  | GoFloat.posInf, GoFloat.finite b =>
      if b < 0 then GoFloat.negInf else GoFloat.posInf
  | GoFloat.negInf, GoFloat.finite b =>
      if b < 0 then GoFloat.posInf else GoFloat.negInf
  | GoFloat.finite _, GoFloat.posInf => GoFloat.finite 0
  | GoFloat.finite _, GoFloat.negInf => GoFloat.finite 0
  | GoFloat.finite a, GoFloat.finite b =>
      if b = 0 then
        if 0 < a then GoFloat.posInf
        else if a < 0 then GoFloat.negInf
        else GoFloat.nanF
      else roundFinite64 (a / b)

/-- IEEE `<`: false whenever either side is NaN. -/
def gfLt : GoFloat → GoFloat → Bool
  | GoFloat.nanF, _ => false
  | _, GoFloat.nanF => false
  | GoFloat.negInf, GoFloat.negInf => false
  | GoFloat.negInf, _ => true
  | _, GoFloat.negInf => false
  | GoFloat.posInf, _ => false
  | GoFloat.finite _, GoFloat.posInf => true
  | GoFloat.finite a, GoFloat.finite b => decide (a < b)

/-- IEEE `>=`: false whenever either side is NaN, otherwise the negation
of `<`. -/
def gfGe (x y : GoFloat) : Bool :=
  match x, y with
  | GoFloat.nanF, _ => false
  | _, GoFloat.nanF => false
  | _, _ => !gfLt x y

/-- The category if-chain at the end of CalcIMC, on the computed
quotient: `< 18.5`, `>= 18.5 && < 25`, `>= 25 && < 30`, else. -/
def imcLabel (calcIMC : GoFloat) : String :=
  if gfLt calcIMC (GoFloat.finite (37 / 2)) then
    "Soldado del Burgo De Los No Muertos"
  else if gfGe calcIMC (GoFloat.finite (37 / 2)) && gfLt calcIMC (GoFloat.finite 25) then
    "NPC"
  else if gfGe calcIMC (GoFloat.finite 25) && gfLt calcIMC (GoFloat.finite 30) then
    "Susi Slayer"
  else
    "Burger King Slayer"

/-- utils.CalcIMC: empty input gives "N/A"; a parse failure gives
"Invalid input"; otherwise weight / height² is mapped through the four
threshold bands of `imcLabel`. -/
def CalcIMC (weight height : String) : String :=
  if weight = "" ∨ height = "" then "N/A"
  else
    match parseFloat weight with
    | none => "Invalid input"
    | some weightF =>
        match parseFloat height with
        | none => "Invalid input"
        | some heightF =>
            imcLabel (gfDiv weightF (gfMul heightF heightF))

/-- Membership of a quotient in the first band of the claim,
written [-inf, 18.5). -/
def inBand1 (r : GoFloat) : Prop :=
  r = GoFloat.negInf ∨ ∃ q : ℚ, r = GoFloat.finite q ∧ q < 37 / 2

/-- Membership in the second band, [18.5, 25). -/
def inBand2 (r : GoFloat) : Prop :=
  ∃ q : ℚ, r = GoFloat.finite q ∧ 37 / 2 ≤ q ∧ q < 25

/-- Membership in the third band, [25, 30). -/
def inBand3 (r : GoFloat) : Prop :=
  ∃ q : ℚ, r = GoFloat.finite q ∧ 25 ≤ q ∧ q < 30

/-- Membership in the fourth band, [30, inf), including the non-finite
quotient produced by division by zero. -/
def inBand4 (r : GoFloat) : Prop :=
  r = GoFloat.posInf ∨ ∃ q : ℚ, r = GoFloat.finite q ∧ 30 ≤ q

/-! ## Data model (models/complejo.go, models/event.go) -/

/-- models.Complejo: a user profile record as bound from JSON and stored. -/
structure Complejo where
  id : String
  username : String
  password : String
  role : String
  weight : String
  height : String
  imc : String
  gender : String
  bench : String
  squad : String
  dl : String
  photo : String
deriving DecidableEq, Repr

/-- models.Event.  `time.Time` is opaque to every claim, so the date is an
uninterpreted string. -/
structure Event where
  id : String
  title : String
  description : String
  participants : List String
  date : String
  image : Option String
  location : String
deriving DecidableEq, Repr

/-! ## CreateComplejo (complejo_handler.go) -/

/-- Response of CreateComplejo: an error status, or 201 with the created
record and its token. -/
inductive CreateResult where
  | errorResp (status : Nat)
  | created (data : Complejo) (token : SignedToken)
deriving DecidableEq, Repr

/-- HTTP status carried by a CreateComplejo response. -/
def createStatus : CreateResult → Nat
  | CreateResult.errorResp s => s
  | CreateResult.created _ _ => 201

/-- handlers.CreateComplejo: `body` is the result of ShouldBindJSON
(`none` = malformed JSON, 400), `newId` is the value of uuid.NewString,
and `insertOk` says whether InsertOne succeeded (failure = 500).  On
success the handler overwrites the id, computes the IMC, inserts the
document, issues a token for (id, role, username), and responds 201 with
the record and token.  Token signing cannot fail in the symbolic model. -/
def CreateComplejo (secret : String) (body : Option Complejo) (newId : String)
    (insertOk : Bool) : CreateResult :=
  match body with
  | none => CreateResult.errorResp 400
  | some c0 =>
      let c := { c0 with id := newId, imc := CalcIMC c0.weight c0.height }
      if insertOk then
        CreateResult.created c (GenerateToken secret c.id c.role c.username)
      else
        CreateResult.errorResp 500

/-! ## List handlers (GetComplejos in complejo_handler.go, GetEvents in
event_handler.go)

The query outcome is an explicit input: `Except` error for a Find or
cursor failure (500), `ok` with the decoded documents otherwise. -/

/-- handlers.GetComplejos: 500 on a query/decode error, 404 when the
decoded list is empty, otherwise 200 with the full list as the response
data. -/
def GetComplejos (queryResult : Except String (List Complejo)) :
    Nat × Option (List Complejo) :=
  match queryResult with
  | Except.error _ => (500, none)
  | Except.ok complejos =>
      if complejos.length = 0 then (404, none) else (200, some complejos)

/-- handlers.GetEvents: same shape as GetComplejos over the event
collection. -/
def GetEvents (queryResult : Except String (List Event)) :
    Nat × Option (List Event) :=
  match queryResult with
  | Except.error _ => (500, none)
  | Except.ok events =>
      if events.length = 0 then (404, none) else (200, some events)

/-! ## UpdateOne with a `$set` patch over a document store

Mongo's UpdateOne updates the first document matching the filter and
reports matched-count and modified-count. -/

/-- Result of an UpdateOne call: matched count, modified count, resulting
store. -/
structure UpdateOneOut where
  matched : Nat
  modified : Nat
  store : DocStore
deriving DecidableEq, Repr

/-- UpdateOne with filter predicate `p` and a `$set` patch: apply the
patch to the first matching document; modified-count is 0 when the patch
changes nothing. -/
def updateOneSet (p : BsonDoc → Bool) (patch : BsonDoc) : DocStore → UpdateOneOut
  | [] => { matched := 0, modified := 0, store := [] }
  | d :: rest =>
      if p d then
        let d2 := applySet d patch
        { matched := 1, modified := if d2 = d then 0 else 1, store := d2 :: rest }
      else
        let r := updateOneSet p patch rest
        { matched := r.matched, modified := r.modified, store := d :: r.store }

/-! ## Update handlers (complejo_handler.go, event_handler.go) -/

/-- Observable outcome of an update handler: the HTTP status, the `$set`
patch passed to UpdateOne when a database call was made, and the store
left behind. -/
structure UpdateOut where
  status : Nat
  dbPatch : Option BsonDoc
  store : DocStore
deriving DecidableEq, Repr

/-- The field allow-list of the user update handler, in source order. -/
def allowedFields : List String :=
  ["username", "weight", "height", "bench", "squad", "deadlift", "photo"]

/-- The filtering loop of UpdateComplejoForUser: walk the allow-list and
keep each field that occurs in the payload. -/
def filterAllowed (updateData : BsonDoc) : BsonDoc :=
  allowedFields.filterMap fun f => (lookupKey updateData f).map fun v => (f, v)

/-- handlers.UpdateComplejoForUser.  Context attributes `_id` and `role`
are `none` when absent.  The Go permission check is
`!idExist || !roleExist || role == "user"`, rejecting 403 when either
attribute is absent or when the role IS the string "user".  Then the JSON
body (`none` = malformed, 400) is filtered through the allow-list; an
empty patch is 400 with no database call; otherwise UpdateOne runs with
filter on `_id` = context id and `role` = "user", giving 404 when it
matches nothing and 200 otherwise. -/
def UpdateComplejoForUser (ctxId ctxRole : Option String) (body : Option BsonDoc)
    (store : DocStore) : UpdateOut :=
  match ctxId, ctxRole with
  | some id, some role =>
      if role = "user" then { status := 403, dbPatch := none, store := store }
      else
        match body with
        | none => { status := 400, dbPatch := none, store := store }
        | some updateData =>
            let filteredUpdate := filterAllowed updateData
            if filteredUpdate = [] then { status := 400, dbPatch := none, store := store }
            else
              let r := updateOneSet
                (fun d => decide (lookupKey d "_id" = some (JsonVal.str id)) &&
                  decide (lookupKey d "role" = some (JsonVal.str "user")))
                filteredUpdate store
              if r.matched = 0 then { status := 404, dbPatch := some filteredUpdate, store := r.store }
              else { status := 200, dbPatch := some filteredUpdate, store := r.store }
  | _, _ => { status := 403, dbPatch := none, store := store }

/-- The admin permission check shared textually by UpdateComplejoForAdmin
and UpdateEventForAdmin, transliterated with Go operator precedence:
`(!roleExists) || (role != "admin" && !idExist) || (id != "_id")`, where a
comparison against an absent (nil) context value is unequal to any
string. -/
def adminPermDenied (ctxRole ctxId : Option String) : Bool :=
  decide (ctxRole = none) ||
    (decide (ctxRole ≠ some "admin") && decide (ctxId = none)) ||
    decide (ctxId ≠ some "_id")

/-- handlers.UpdateComplejoForAdmin: the permission check above (403 on
denial), then JSON decode (400 on failure), then `delete(updateData,
"_id")`, then UpdateOne with filter `_id` = context id (404 when nothing
matched, 200 otherwise). -/
def UpdateComplejoForAdmin (ctxRole ctxId : Option String) (body : Option BsonDoc)
    (store : DocStore) : UpdateOut :=
  if adminPermDenied ctxRole ctxId then { status := 403, dbPatch := none, store := store }
  else
    match body with
    | none => { status := 400, dbPatch := none, store := store }
    | some updateData =>
        let patch := eraseKey updateData "_id"
        let idStr := ctxId.getD ""
        let r := updateOneSet
          (fun d => decide (lookupKey d "_id" = some (JsonVal.str idStr))) patch store
        if r.matched = 0 then { status := 404, dbPatch := some patch, store := r.store }
        else { status := 200, dbPatch := some patch, store := r.store }

/-- handlers.UpdateEventForAdmin: identical control flow to
UpdateComplejoForAdmin over the event collection. -/
def UpdateEventForAdmin (ctxRole ctxId : Option String) (body : Option BsonDoc)
    (store : DocStore) : UpdateOut :=
  if adminPermDenied ctxRole ctxId then { status := 403, dbPatch := none, store := store }
  else
    match body with
    | none => { status := 400, dbPatch := none, store := store }
    | some updateData =>
        let patch := eraseKey updateData "_id"
        let idStr := ctxId.getD ""
        let r := updateOneSet
          (fun d => decide (lookupKey d "_id" = some (JsonVal.str idStr))) patch store
        if r.matched = 0 then { status := 404, dbPatch := some patch, store := r.store }
        else { status := 200, dbPatch := some patch, store := r.store }

/-! ## Subscribe / unsubscribe handlers (event_handler.go)

The router (main.go) registers these handlers on `/event/:id/subscribe`
and `/event/:id/unsubscribe`, so Gin binds the path segment to the route
parameter named `id`; `c.Param` returns the empty string for any other
name.  Both handlers read `c.Param("_id")`. -/

/-- Result of UpdateOne over the event collection: matched count,
modified count, resulting collection. -/
structure EvUpdateOut where
  matched : Nat
  modified : Nat
  store : List Event
deriving DecidableEq, Repr

/-- UpdateOne with filter `_id = eventID` and `$addToSet participants
username`: the first matching event gains the username unless it is
already a participant, in which case nothing is modified. -/
def subscribeUpdateOne (eventID username : String) : List Event → EvUpdateOut
  | [] => { matched := 0, modified := 0, store := [] }
  | e :: rest =>
      if e.id = eventID then
        if username ∈ e.participants then
          { matched := 1, modified := 0, store := e :: rest }
        else
          { matched := 1, modified := 1
          , store := { e with participants := e.participants ++ [username] } :: rest }
      else
        let r := subscribeUpdateOne eventID username rest
        { matched := r.matched, modified := r.modified, store := e :: r.store }

/-- UpdateOne with filter `_id = eventID` and `$pull participants
username`: the first matching event loses every occurrence of the
username; nothing is modified when it was not a participant. -/
def pullUpdateOne (eventID username : String) : List Event → EvUpdateOut
  | [] => { matched := 0, modified := 0, store := [] }
  | e :: rest =>
      if e.id = eventID then
        if username ∈ e.participants then
          { matched := 1, modified := 1
          , store := { e with participants := e.participants.filter (fun u => u ≠ username) } :: rest }
        else
          { matched := 1, modified := 0, store := e :: rest }
      else
        let r := pullUpdateOne eventID username rest
        { matched := r.matched, modified := r.modified, store := e :: r.store }

/-- Observable outcome of a subscribe/unsubscribe request: HTTP status,
whether UpdateOne was invoked at all, and the event collection left
behind. -/
structure SubOut where
  status : Nat
  dbCalled : Bool
  store : List Event
deriving DecidableEq, Repr

/-- handlers.SubscribeEvent: reads the route parameter named `_id`
(Gin yields "" since the route declares `:id`), rejects 403 when the
context username is absent or is the literal string "username", then runs
the `$addToSet` UpdateOne: matched 0 is 404, modified 0 is 409, else
200. -/
def SubscribeEvent (params : List (String × String)) (ctxUsername : Option String)
    (store : List Event) : SubOut :=
  let eventID := (lookupKey params "_id").getD ""
  match ctxUsername with
  | none => { status := 403, dbCalled := false, store := store }
  | some username =>
      if username = "username" then { status := 403, dbCalled := false, store := store }
      else
        let r := subscribeUpdateOne eventID username store
        if r.matched = 0 then { status := 404, dbCalled := true, store := r.store }
        else if r.modified = 0 then { status := 409, dbCalled := true, store := r.store }
        else { status := 200, dbCalled := true, store := r.store }

/-- handlers.UnsuscribeEvent: same guard and shape as SubscribeEvent with
the `$pull` update. -/
def UnsuscribeEvent (params : List (String × String)) (ctxUsername : Option String)
    (store : List Event) : SubOut :=
  let eventID := (lookupKey params "_id").getD ""
  match ctxUsername with
  | none => { status := 403, dbCalled := false, store := store }
  | some username =>
      if username = "username" then { status := 403, dbCalled := false, store := store }
      else
        let r := pullUpdateOne eventID username store
        if r.matched = 0 then { status := 404, dbCalled := true, store := r.store }
        else if r.modified = 0 then { status := 409, dbCalled := true, store := r.store }
        else { status := 200, dbCalled := true, store := r.store }

/-! ## Helper lemmas -/

theorem lookupKey_eraseKey {α : Type} (m : List (String × α)) (k : String) :
    lookupKey (eraseKey m k) k = none := by
  induction m with
  | nil => rfl
  | cons kv rest ih =>
      rcases kv with ⟨k1, v⟩
      by_cases h : k1 = k
      · simpa [eraseKey, h] using ih
      · simp [eraseKey, h, lookupKey, ih]

theorem lookupKey_setKey_ne {α : Type} (m : List (String × α)) (k1 k : String) (v : α)
    (h : k1 ≠ k) : lookupKey (setKey m k1 v) k = lookupKey m k := by
  induction m with
  | nil => simp [setKey, lookupKey, h]
  | cons kv rest ih =>
      rcases kv with ⟨k2, v2⟩
      by_cases h2 : k2 = k1
      · subst h2
        simp [setKey, lookupKey, h]
      · by_cases h3 : k2 = k
        · subst h3
          simp [setKey, lookupKey, h2]
        · simp [setKey, lookupKey, h2, h3, ih]

theorem lookupKey_applySet_none {doc patch : BsonDoc} {k : String}
    (h : lookupKey patch k = none) :
    lookupKey (applySet doc patch) k = lookupKey doc k := by
  induction patch generalizing doc with
  | nil => rfl
  | cons kv rest ih =>
      rcases kv with ⟨k1, v⟩
      have hne : k1 ≠ k := by
        intro he
        subst he
        simp [lookupKey] at h
      have hr : lookupKey rest k = none := by
        simpa [lookupKey, hne] using h
      show lookupKey (applySet (setKey doc k1 v) rest) k = lookupKey doc k
      rw [ih hr, lookupKey_setKey_ne _ _ _ _ hne]

theorem updateOneSet_map_key (p : BsonDoc → Bool) (patch : BsonDoc) (k : String)
    (h : lookupKey patch k = none) (store : DocStore) :
    (updateOneSet p patch store).store.map (fun d => lookupKey d k)
      = store.map (fun d => lookupKey d k) := by
  induction store with
  | nil => rfl
  | cons d rest ih =>
      by_cases hp : p d = true
      · simp [updateOneSet, hp, lookupKey_applySet_none h]
      · simp [updateOneSet, hp, ih]

theorem subscribeUpdateOne_no_match (eid u : String) (store : List Event)
    (h : ∀ e ∈ store, e.id ≠ eid) :
    subscribeUpdateOne eid u store = { matched := 0, modified := 0, store := store } := by
  induction store with
  | nil => rfl
  | cons e rest ih =>
      have he : e.id ≠ eid := h e (by simp)
      have hr := ih (fun e' he' => h e' (by simp [he']))
      simp [subscribeUpdateOne, he, hr]

theorem pullUpdateOne_no_match (eid u : String) (store : List Event)
    (h : ∀ e ∈ store, e.id ≠ eid) :
    pullUpdateOne eid u store = { matched := 0, modified := 0, store := store } := by
  induction store with
  | nil => rfl
  | cons e rest ih =>
      have he : e.id ≠ eid := h e (by simp)
      have hr := ih (fun e' he' => h e' (by simp [he']))
      simp [pullUpdateOne, he, hr]

theorem mem_filterAllowed (updateData : BsonDoc) (k : String) (v : JsonVal) :
    (k, v) ∈ filterAllowed updateData
      ↔ k ∈ allowedFields ∧ lookupKey updateData k = some v := by
  simp only [filterAllowed, List.mem_filterMap, Option.map_eq_some']
  constructor
  · rintro ⟨a, ha, b, hb, heq⟩
    injection heq with h1 h2
    subst h1
    subst h2
    exact ⟨ha, hb⟩
  · rintro ⟨hk, hv⟩
    exact ⟨k, hk, v, hv, rfl⟩

/-! ## Claim theorems -/

/-- C1: the claim says UpdateComplejoForUser passes its permission check
exactly when the context role is "user" and rejects 403 otherwise.  The
code does the opposite: with a validated identity of role "user" it
responds 403 without touching the database, while a role of "admin" gets
past the check.  This theorem evaluates the handler at both inputs. -/
theorem updateComplejoForUser_rejects_role_user :
    UpdateComplejoForUser (some "u1") (some "user")
        (some [("weight", JsonVal.str "80")]) []
      = { status := 403, dbPatch := none, store := [] }
  ∧ (UpdateComplejoForUser (some "u1") (some "admin")
        (some [("weight", JsonVal.str "80")]) []).status ≠ 403 := by
  decide

/-- C2: the claim says the admin update handlers pass their permission
check for role "admin" and reject 403 otherwise.  The code's condition
`!roleExists || role != "admin" && !idExist || id != "_id"` rejects every
identity whose context id differs from the literal string "_id" — in
particular every real admin — and passes a non-admin whose id is the
literal "_id".  This theorem evaluates both handlers at both inputs. -/
theorem adminUpdate_permission_check_diverges :
    (UpdateComplejoForAdmin (some "admin")
        (some "550e8400-e29b-41d4-a716-446655440000")
        (some [("weight", JsonVal.str "80")]) []).status = 403
  ∧ (UpdateEventForAdmin (some "admin")
        (some "550e8400-e29b-41d4-a716-446655440000")
        (some [("title", JsonVal.str "t")]) []).status = 403
  ∧ (UpdateComplejoForAdmin (some "user") (some "_id")
        (some [("weight", JsonVal.str "80")]) []).status ≠ 403
  ∧ (UpdateEventForAdmin (some "user") (some "_id")
        (some [("title", JsonVal.str "t")]) []).status ≠ 403 := by
  decide

/-- C9: on a successful query, both list handlers report an empty
collection as 404 with no data, and a non-empty collection as 200 with
the full list. -/
theorem listHandlers_empty_is_404 :
    GetComplejos (Except.ok []) = (404, none)
  ∧ (∀ l : List Complejo, l ≠ [] → GetComplejos (Except.ok l) = (200, some l))
  ∧ GetEvents (Except.ok []) = (404, none)
  ∧ (∀ l : List Event, l ≠ [] → GetEvents (Except.ok l) = (200, some l)) := by
  refine ⟨rfl, ?_, rfl, ?_⟩
  · intro l hl
    simp [GetComplejos, List.length_eq_zero, hl]
  · intro l hl
    simp [GetEvents, List.length_eq_zero, hl]

/-- A sample event used to instantiate hypothesis-bearing theorems. -/
def sampleEvent : Event :=
  { id := "e1", title := "Gym Meetup", description := "d"
  , participants := ["bob"], date := "2025-02-01T10:00:00Z"
  , image := none, location := "Local Gym" }

/-- Witness for C9 at a concrete non-empty collection. -/
theorem listHandlers_empty_is_404_witness :
    GetEvents (Except.ok [sampleEvent]) = (200, some [sampleEvent]) :=
  listHandlers_empty_is_404.2.2.2 [sampleEvent] (by decide)

/-- C10: when the context username attribute is absent or equals the
literal string "username", both subscribe handlers respond 403 with no
database call and an unchanged collection, for every route parameter list
and every collection — so a user actually named "username" can never
subscribe or unsubscribe. -/
theorem subscribe_username_literal_guard
    (params : List (String × String)) (u : Option String) (store : List Event)
    (h : u = none ∨ u = some "username") :
    SubscribeEvent params u store = { status := 403, dbCalled := false, store := store }
  ∧ UnsuscribeEvent params u store = { status := 403, dbCalled := false, store := store } := by
  rcases h with rfl | rfl
  · exact ⟨rfl, rfl⟩
  · simp [SubscribeEvent, UnsuscribeEvent]

/-- Witness for C10: the guard at a concrete request whose caller is
named "username". -/
theorem subscribe_username_literal_guard_witness :
    SubscribeEvent [("id", "e1")] (some "username") [sampleEvent]
        = { status := 403, dbCalled := false, store := [sampleEvent] }
  ∧ UnsuscribeEvent [("id", "e1")] (some "username") [sampleEvent]
        = { status := 403, dbCalled := false, store := [sampleEvent] } :=
  subscribe_username_literal_guard [("id", "e1")] (some "username") [sampleEvent]
    (Or.inr rfl)

/-- C3: the middleware's rejection contract.  Any header that does not
carry a structurally valid token — absent header, malformed token, wrong
signing method, wrong secret — aborts 401, so a structurally invalid
token never reaches the claim-level checks; a structurally valid token
with any of the three claims absent or empty aborts 403; and a
structurally valid token with all three claims non-empty passes through
with exactly those claim values attached for the next handler. -/
theorem authMiddleware_rejection_contract :
    (∀ (secret : String) (hdr : AuthHeader), ¬ structurallyValid secret hdr →
        AuthMiddleware secret hdr = MwResult.abortWith 401)
  ∧ (∀ (secret : String) (t : SignedToken),
        t.method = JwtMethod.hmacSHA256 → t.signedWith = secret →
        (claimMissing t.claims.roleClaim || claimMissing t.claims.usernameClaim ||
          claimMissing t.claims.idClaim) = true →
        AuthMiddleware secret (AuthHeader.bearer t) = MwResult.abortWith 403)
  ∧ (∀ (secret : String) (t : SignedToken) (id username role : String),
        t.method = JwtMethod.hmacSHA256 → t.signedWith = secret →
        t.claims.idClaim = some id → t.claims.usernameClaim = some username →
        t.claims.roleClaim = some role →
        id ≠ "" → username ≠ "" → role ≠ "" →
        AuthMiddleware secret (AuthHeader.bearer t) = MwResult.passThrough id username role) := by
  refine ⟨?_, ?_, ?_⟩
  · intro secret hdr hnv
    match hdr with
    | AuthHeader.missingHeader => rfl
    | AuthHeader.malformedToken => rfl
    | AuthHeader.bearer t =>
        have hbad : t.method ≠ JwtMethod.hmacSHA256 ∨ t.signedWith ≠ secret := by
          by_contra hc
          push_neg at hc
          exact hnv ⟨t, rfl, hc.1, hc.2⟩
        simp [AuthMiddleware, if_pos hbad]
  · intro secret t hm hs hcm
    have hok : ¬ (t.method ≠ JwtMethod.hmacSHA256 ∨ t.signedWith ≠ secret) := by
      push_neg
      exact ⟨hm, hs⟩
    rcases Bool.or_eq_true_iff.mp hcm with hor | hi
    · rcases Bool.or_eq_true_iff.mp hor with hr | hu
      · simp [AuthMiddleware, if_neg hok, hr]
      · simp [AuthMiddleware, if_neg hok, hu]
    · simp [AuthMiddleware, if_neg hok, hi]
  · intro secret t id username role hm hs hid husr hrole hidne husrne hrolene
    have hok : ¬ (t.method ≠ JwtMethod.hmacSHA256 ∨ t.signedWith ≠ secret) := by
      push_neg
      exact ⟨hm, hs⟩
    simp [AuthMiddleware, if_neg hok, hid, husr, hrole, claimMissing, hidne, husrne, hrolene]

/-- Witness for C3: a token signed with a different secret is rejected
401; an HMAC token for the right secret with an empty role claim is
rejected 403; a full token passes through with its claim values. -/
theorem authMiddleware_rejection_contract_witness :
    AuthMiddleware "secret" (AuthHeader.bearer (GenerateToken "other" "i1" "user" "alice"))
        = MwResult.abortWith 401
  ∧ AuthMiddleware "secret"
        (AuthHeader.bearer
          { method := JwtMethod.hmacSHA256
          , claims := { idClaim := some "i1", usernameClaim := some "alice", roleClaim := some "" }
          , signedWith := "secret" })
        = MwResult.abortWith 403
  ∧ AuthMiddleware "secret" (AuthHeader.bearer (GenerateToken "secret" "i1" "user" "alice"))
        = MwResult.passThrough "i1" "alice" "user" :=
  ⟨authMiddleware_rejection_contract.1 "secret" _
      (by
        rintro ⟨t, ht, hm, hs⟩
        cases ht
        exact absurd hs (by decide)),
   authMiddleware_rejection_contract.2.1 "secret" _ rfl rfl (by decide),
   authMiddleware_rejection_contract.2.2 "secret" _ "i1" "alice" "user" rfl rfl rfl rfl rfl
      (by decide) (by decide) (by decide)⟩

/-- C4: a well-formed create request whose insert succeeds responds 201
with the stored record (id overwritten with the generated one, imc
recomputed) and a token issued for that record, and validating the token
through the middleware recovers exactly the stored id, username and
role. -/
theorem createComplejo_token_roundtrip (secret newId : String) (c0 : Complejo)
    (hu : c0.username ≠ "") (hr : c0.role ≠ "") (hid : newId ≠ "") :
    createStatus (CreateComplejo secret (some c0) newId true) = 201
  ∧ CreateComplejo secret (some c0) newId true
      = CreateResult.created { c0 with id := newId, imc := CalcIMC c0.weight c0.height }
          (GenerateToken secret newId c0.role c0.username)
  ∧ AuthMiddleware secret (AuthHeader.bearer (GenerateToken secret newId c0.role c0.username))
      = MwResult.passThrough newId c0.username c0.role := by
  refine ⟨rfl, rfl, ?_⟩
  simp [AuthMiddleware, GenerateToken, claimMissing, hu, hr, hid]

/-- A sample create payload used to instantiate hypothesis-bearing
theorems. -/
def sampleComplejo : Complejo :=
  { id := "", username := "test_user", password := "pw", role := "user"
  , weight := "70", height := "1.8", imc := "", gender := "male"
  , bench := "100", squad := "140", dl := "180", photo := "p" }

/-- Witness for C4 at a concrete payload and generated id. -/
theorem createComplejo_token_roundtrip_witness :
    createStatus (CreateComplejo "secret" (some sampleComplejo) "uuid-1" true) = 201
  ∧ CreateComplejo "secret" (some sampleComplejo) "uuid-1" true
      = CreateResult.created
          { sampleComplejo with
              id := "uuid-1",
              imc := CalcIMC sampleComplejo.weight sampleComplejo.height }
          (GenerateToken "secret" "uuid-1" sampleComplejo.role sampleComplejo.username)
  ∧ AuthMiddleware "secret"
        (AuthHeader.bearer
          (GenerateToken "secret" "uuid-1" sampleComplejo.role sampleComplejo.username))
      = MwResult.passThrough "uuid-1" sampleComplejo.username sampleComplejo.role :=
  createComplejo_token_roundtrip "secret" "uuid-1" sampleComplejo
    (by decide) (by decide) (by decide)

/-- C6: the claim says a subscribe or unsubscribe naming an existing
event adds/removes the caller and yields 200/409/404 by match and
modification.  But the routes are registered as `/event/:id/...` while
both handlers read the route parameter named `_id`, which Gin resolves to
"": the UpdateOne filter is `_id = ""`, so for every collection whose
events have non-empty ids every such request answers 404 and leaves the
collection unchanged, whatever event the URL names. -/
theorem subscribeHandlers_route_param_mismatch (eid user : String) (store : List Event)
    (hu : user ≠ "username") (hids : ∀ e ∈ store, e.id ≠ "") :
    SubscribeEvent [("id", eid)] (some user) store
        = { status := 404, dbCalled := true, store := store }
  ∧ UnsuscribeEvent [("id", eid)] (some user) store
        = { status := 404, dbCalled := true, store := store } := by
  have h1 := subscribeUpdateOne_no_match "" user store hids
  have h2 := pullUpdateOne_no_match "" user store hids
  constructor
  · simp [SubscribeEvent, lookupKey, hu, h1]
  · simp [UnsuscribeEvent, lookupKey, hu, h2]

/-- Witness for C6: subscribing the user "alice" to the existing event
"e1" through its route answers 404 and changes nothing. -/
theorem subscribeHandlers_route_param_mismatch_witness :
    SubscribeEvent [("id", "e1")] (some "alice") [sampleEvent]
        = { status := 404, dbCalled := true, store := [sampleEvent] }
  ∧ UnsuscribeEvent [("id", "e1")] (some "alice") [sampleEvent]
        = { status := 404, dbCalled := true, store := [sampleEvent] } :=
  subscribeHandlers_route_param_mismatch "e1" "alice" [sampleEvent]
    (by decide) (by decide)

/-- C7: a payload field survives into the database patch exactly when its
name is on the allow-list and it occurs in the payload (everything else
is silently dropped); an empty filtered patch answers 400 with no
database call; a non-empty filtered patch is exactly what UpdateOne
receives.  The role hypotheses only state that the request got past the
permission check. -/
theorem updateComplejoForUser_allowlist :
    (∀ (updateData : BsonDoc) (k : String) (v : JsonVal),
        (k, v) ∈ filterAllowed updateData
          ↔ k ∈ allowedFields ∧ lookupKey updateData k = some v)
  ∧ (∀ (id role : String) (body : BsonDoc) (store : DocStore),
        role ≠ "user" → filterAllowed body = [] →
        UpdateComplejoForUser (some id) (some role) (some body) store
          = { status := 400, dbPatch := none, store := store })
  ∧ (∀ (id role : String) (body : BsonDoc) (store : DocStore),
        role ≠ "user" → filterAllowed body ≠ [] →
        (UpdateComplejoForUser (some id) (some role) (some body) store).dbPatch
          = some (filterAllowed body)) := by
  refine ⟨mem_filterAllowed, ?_, ?_⟩
  · intro id role body store hrole hempty
    simp [UpdateComplejoForUser, hrole, hempty]
  · intro id role body store hrole hne
    simp only [UpdateComplejoForUser, if_neg hrole, if_neg hne]
    split <;> rfl

/-- Witness for C7: a payload with one allow-listed and one foreign field
sends exactly the allow-listed field to the database; a payload with only
a foreign field answers 400 without a database call. -/
theorem updateComplejoForUser_allowlist_witness :
    UpdateComplejoForUser (some "u1") (some "admin")
        (some [("hack", JsonVal.str "x")]) []
      = { status := 400, dbPatch := none, store := [] }
  ∧ (UpdateComplejoForUser (some "u1") (some "admin")
        (some [("weight", JsonVal.num 80), ("hack", JsonVal.str "x")]) []).dbPatch
      = some (filterAllowed [("weight", JsonVal.num 80), ("hack", JsonVal.str "x")]) :=
  ⟨updateComplejoForUser_allowlist.2.1 "u1" "admin" [("hack", JsonVal.str "x")] []
      (by decide) (by decide),
   updateComplejoForUser_allowlist.2.2 "u1" "admin"
      [("weight", JsonVal.num 80), ("hack", JsonVal.str "x")] []
      (by decide) (by decide)⟩

/-- C8: both admin update handlers delete the `_id` field from the
payload before the persistence call: the erased patch never binds `_id`,
whenever a database call is made its patch is exactly the payload with
`_id` removed, and — for every input whatsoever — the `_id` of every
stored document is the same after the handler as before. -/
theorem adminUpdate_strips_identifier :
    (∀ body : BsonDoc, lookupKey (eraseKey body "_id") "_id" = none)
  ∧ (∀ (role id : Option String) (body : BsonDoc) (store : DocStore) (p : BsonDoc),
        (UpdateComplejoForAdmin role id (some body) store).dbPatch = some p →
        p = eraseKey body "_id")
  ∧ (∀ (role id : Option String) (body : BsonDoc) (store : DocStore) (p : BsonDoc),
        (UpdateEventForAdmin role id (some body) store).dbPatch = some p →
        p = eraseKey body "_id")
  ∧ (∀ (role id : Option String) (body : Option BsonDoc) (store : DocStore),
        (UpdateComplejoForAdmin role id body store).store.map (fun d => lookupKey d "_id")
          = store.map (fun d => lookupKey d "_id"))
  ∧ (∀ (role id : Option String) (body : Option BsonDoc) (store : DocStore),
        (UpdateEventForAdmin role id body store).store.map (fun d => lookupKey d "_id")
          = store.map (fun d => lookupKey d "_id")) := by
  refine ⟨fun body => lookupKey_eraseKey body "_id", ?_, ?_, ?_, ?_⟩
  · intro role id body store p
    by_cases hd : adminPermDenied role id = true
    · simp [UpdateComplejoForAdmin, hd]
    · simp only [UpdateComplejoForAdmin, hd, if_false, Bool.false_eq_true]
      split
      · intro h
        exact (Option.some.injEq _ _ ▸ h).symm
      · intro h
        exact (Option.some.injEq _ _ ▸ h).symm
  · intro role id body store p
    by_cases hd : adminPermDenied role id = true
    · simp [UpdateEventForAdmin, hd]
    · simp only [UpdateEventForAdmin, hd, if_false, Bool.false_eq_true]
      split
      · intro h
        exact (Option.some.injEq _ _ ▸ h).symm
      · intro h
        exact (Option.some.injEq _ _ ▸ h).symm
  · intro role id body store
    by_cases hd : adminPermDenied role id = true
    · simp [UpdateComplejoForAdmin, hd]
    · match body with
      | none => simp [UpdateComplejoForAdmin, hd]
      | some updateData =>
          have hmap := updateOneSet_map_key
            (fun d => decide (lookupKey d "_id" = some (JsonVal.str (id.getD ""))))
            (eraseKey updateData "_id") "_id" (lookupKey_eraseKey updateData "_id") store
          simp only [UpdateComplejoForAdmin, hd, if_false, Bool.false_eq_true]
          split <;> simpa using hmap
  · intro role id body store
    by_cases hd : adminPermDenied role id = true
    · simp [UpdateEventForAdmin, hd]
    · match body with
      | none => simp [UpdateEventForAdmin, hd]
      | some updateData =>
          have hmap := updateOneSet_map_key
            (fun d => decide (lookupKey d "_id" = some (JsonVal.str (id.getD ""))))
            (eraseKey updateData "_id") "_id" (lookupKey_eraseKey updateData "_id") store
          simp only [UpdateEventForAdmin, hd, if_false, Bool.false_eq_true]
          split <;> simpa using hmap

/-- Witness for C8: a payload trying to overwrite `_id` reaches the
database with the `_id` binding removed and the other field intact. -/
theorem adminUpdate_strips_identifier_witness :
    (UpdateComplejoForAdmin (some "x") (some "_id")
        (some [("_id", JsonVal.str "evil"), ("weight", JsonVal.num 1)]) []).dbPatch
      = some [("weight", JsonVal.num 1)]
  ∧ [("weight", JsonVal.num 1)]
      = eraseKey [("_id", JsonVal.str "evil"), ("weight", JsonVal.num 1)] "_id" := by
  have h : (UpdateComplejoForAdmin (some "x") (some "_id")
      (some [("_id", JsonVal.str "evil"), ("weight", JsonVal.num 1)]) []).dbPatch
      = some [("weight", JsonVal.num 1)] := by decide
  exact ⟨h, adminUpdate_strips_identifier.2.1 (some "x") (some "_id")
    [("_id", JsonVal.str "evil"), ("weight", JsonVal.num 1)] [] [("weight", JsonVal.num 1)] h⟩


/-- C5: CalcIMC returns "N/A" when either input is empty, "Invalid
input" when either non-empty input fails to parse, and otherwise maps the
quotient weight / height² through the four bands of the claim —
[-inf, 18.5), [18.5, 25), [25, 30), [30, inf) — via `imcLabel`; dividing
70 by 0² yields the non-finite value +Inf, which falls into the top
category. -/
theorem calcIMC_spec :
    (∀ w h : String, w = "" ∨ h = "" → CalcIMC w h = "N/A")
  ∧ (∀ w h : String, w ≠ "" → h ≠ "" → (parseFloat w = none ∨ parseFloat h = none) →
        CalcIMC w h = "Invalid input")
  ∧ (∀ (w h : String) (a b : GoFloat), w ≠ "" → h ≠ "" →
        parseFloat w = some a → parseFloat h = some b →
        CalcIMC w h = imcLabel (gfDiv a (gfMul b b)))
  ∧ (∀ r : GoFloat,
        (inBand1 r → imcLabel r = "Soldado del Burgo De Los No Muertos")
      ∧ (inBand2 r → imcLabel r = "NPC")
      ∧ (inBand3 r → imcLabel r = "Susi Slayer")
      ∧ (inBand4 r → imcLabel r = "Burger King Slayer"))
  ∧ (parseFloat "70" = some (GoFloat.finite 70)
      ∧ parseFloat "0" = some (GoFloat.finite 0)
      ∧ gfDiv (GoFloat.finite 70) (gfMul (GoFloat.finite 0) (GoFloat.finite 0)) = GoFloat.posInf
      ∧ CalcIMC "70" "0" = "Burger King Slayer") := by
  have hcomp : ∀ (w h : String) (a b : GoFloat), w ≠ "" → h ≠ "" →
      parseFloat w = some a → parseFloat h = some b →
      CalcIMC w h = imcLabel (gfDiv a (gfMul b b)) := by
    intro w h a b hw hh hpa hpb
    have hne : ¬(w = "" ∨ h = "") := by
      push_neg
      exact ⟨hw, hh⟩
    unfold CalcIMC
    rw [if_neg hne, hpa, hpb]
  refine ⟨?_, ?_, hcomp, ?_, ?_⟩
  · intro w h hor
    unfold CalcIMC
    rw [if_pos hor]
  · intro w h hw hh hor
    have hne : ¬(w = "" ∨ h = "") := by
      push_neg
      exact ⟨hw, hh⟩
    unfold CalcIMC
    rw [if_neg hne]
    rcases hor with h1 | h1
    · simp [h1]
    · cases hpw : parseFloat w with
      | none => simp
      | some a => simp [h1]
  · intro r
    refine ⟨?_, ?_, ?_, ?_⟩
    · rintro (rfl | ⟨q, rfl, hlt⟩)
      · rfl
      · simp [imcLabel, gfLt, hlt]
    · rintro ⟨q, rfl, hge, hlt⟩
      have h1 : ¬(q < 37 / 2) := not_lt.mpr hge
      simp [imcLabel, gfLt, gfGe, h1, hlt]
    · rintro ⟨q, rfl, hge, hlt⟩
      have h1 : ¬(q < 37 / 2) := not_lt.mpr (le_trans (by norm_num) hge)
      have h2 : ¬(q < 25) := not_lt.mpr hge
      simp [imcLabel, gfLt, gfGe, h1, h2, hlt]
    · rintro (rfl | ⟨q, rfl, hge⟩)
      · rfl
      · have h1 : ¬(q < 37 / 2) := not_lt.mpr (le_trans (by norm_num) hge)
        have h2 : ¬(q < 25) := not_lt.mpr (le_trans (by norm_num) hge)
        have h3 : ¬(q < 30) := not_lt.mpr hge
        simp [imcLabel, gfLt, gfGe, h1, h2, h3]
  · have hbr70 : binToRat false 9175040 (-17) = (70 : ℚ) := by
      norm_num [binToRat, qpow2, show Int.toNat 17 = 17 from rfl, show Int.toNat 22 = 22 from rfl]
    have h70 : parseFloat "70" = some (GoFloat.finite 70) := by
      have h : parseFloat "70" = some (GoFloat.finite (binToRat false 9175040 (-17))) := rfl
      rw [h, hbr70]
    have h0 : parseFloat "0" = some (GoFloat.finite 0) := rfl
    have hdiv : gfDiv (GoFloat.finite 70)
        (gfMul (GoFloat.finite 0) (GoFloat.finite 0)) = GoFloat.posInf := by
      simp [gfMul, gfDiv]
    have hcalc := hcomp "70" "0" _ _ (by decide) (by decide) h70 h0
    rw [hdiv] at hcalc
    refine ⟨h70, h0, hdiv, ?_⟩
    rw [hcalc]
    rfl

/-- Witness for C5: the sentinel cases, the band composition at a parsed
pair, and the second band at 21. -/
theorem calcIMC_spec_witness :
    CalcIMC "" "1.8" = "N/A"
  ∧ CalcIMC "70" "x" = "Invalid input"
  ∧ CalcIMC "70" "2"
      = imcLabel (gfDiv (GoFloat.finite 70) (gfMul (GoFloat.finite 2) (GoFloat.finite 2)))
  ∧ imcLabel (GoFloat.finite 21) = "NPC" := by
  have h70 : parseFloat "70" = some (GoFloat.finite 70) := by
    have h : parseFloat "70" = some (GoFloat.finite (binToRat false 9175040 (-17))) := rfl
    rw [h]
    norm_num [binToRat, qpow2, show Int.toNat 17 = 17 from rfl, show Int.toNat 22 = 22 from rfl]
  have h2 : parseFloat "2" = some (GoFloat.finite 2) := by
    have h : parseFloat "2" = some (GoFloat.finite (binToRat false 8388608 (-22))) := rfl
    rw [h]
    norm_num [binToRat, qpow2, show Int.toNat 17 = 17 from rfl, show Int.toNat 22 = 22 from rfl]
  exact ⟨calcIMC_spec.1 "" "1.8" (Or.inl rfl),
    calcIMC_spec.2.1 "70" "x" (by decide) (by decide) (Or.inr rfl),
    calcIMC_spec.2.2.1 "70" "2" (GoFloat.finite 70) (GoFloat.finite 2)
      (by decide) (by decide) h70 h2,
    (calcIMC_spec.2.2.2.1 (GoFloat.finite 21)).2.1 ⟨21, rfl, by norm_num, by norm_num⟩⟩
